import Mathlib

set_option maxRecDepth 8192

/-!
Shallow embedding of the comfy.cursorrules harvesting tools
(tools/crawlers/comfyui_crawler.py, tools/crawlers/github_workflow_crawler.py,
tools/parse_workflow_templates.py, tools/civitai_image_search.py).

Python strings are Lean String values; JSON values parsed by the Python
json module are the inductive type Json below (numbers restricted to the
integer literals exercised by the tools); the filesystem is an association
list from path to written text content.
-/

/-- JSON values as produced by the Python json module. Numbers are
restricted to integers, the only numeric forms exercised in this
development; objects are insertion-ordered key/value lists with unique keys
(later duplicate keys overwrite earlier ones, as a Python dict does). -/
inductive Json where
| null : Json
| bool (b : Bool) : Json
| num (n : Int) : Json
| str (s : String) : Json
| arr (elems : List Json) : Json
| obj (members : List (String × Json)) : Json

/-- Python truthiness (bool(x)) of a JSON value: None, False, 0, the empty
string, the empty list and the empty dict are falsy. -/
def Json.truthy : Json → Bool
| .null => false
| .bool b => b
| .num n => n != 0
| .str s => !(s == "")
| .arr es => !es.isEmpty
| .obj ms => !ms.isEmpty

/-- The left-brace character, written via its code point. -/
def lbrace : Char := Char.ofNat 123

/-- The right-brace character, written via its code point. -/
def rbrace : Char := Char.ofNat 125

/-- Whitespace accepted between JSON tokens by the Python json module. -/
def jpWs (c : Char) : Bool := c == ' ' || c == '\n' || c == '\t' || c == '\r'

/-- Skip inter-token whitespace. -/
def jpSkipWs (cs : List Char) : List Char := cs.dropWhile jpWs

/-- Value of a hexadecimal digit, used for \u escapes. -/
def jpHexVal (c : Char) : Option Nat :=
  if '0' ≤ c ∧ c ≤ '9' then some (c.toNat - 48)
  else if 'a' ≤ c ∧ c ≤ 'f' then some (c.toNat - 87)
  else if 'A' ≤ c ∧ c ≤ 'F' then some (c.toNat - 55)
  else none

/-- Simple escapes inside a JSON string literal. -/
def jpEsc (c : Char) : Option Char :=
  if c = '"' then some '"'
  else if c = '\\' then some '\\'
  else if c = '/' then some '/'
  else if c = 'n' then some '\n'
  else if c = 't' then some '\t'
  else if c = 'r' then some '\r'
  else if c = 'b' then some (Char.ofNat 8)
  else if c = 'f' then some (Char.ofNat 12)
  else none

/-- Parse the body of a JSON string literal (the opening quote already
consumed), returning the decoded characters and the remaining input.
Models the json module string scanner on inputs without surrogate-pair
\u escapes. -/
def jpString : List Char → Option (List Char × List Char)
| [] => none
| c :: rest =>
  if c = '"' then some ([], rest)
  else if c = '\\' then
    match rest with
    | [] => none
    | e :: rest2 =>
      if e = 'u' then
        match rest2 with
        | h1 :: h2 :: h3 :: h4 :: rest3 =>
          match jpHexVal h1, jpHexVal h2, jpHexVal h3, jpHexVal h4 with
          | some a, some b, some c2, some d =>
            (jpString rest3).map
              (fun r => (Char.ofNat (a * 4096 + b * 256 + c2 * 16 + d) :: r.1, r.2))
          | _, _, _, _ => none
        | _ => none
      else
        match jpEsc e with
        | some ch => (jpString rest2).map (fun r => (ch :: r.1, r.2))
        | none => none
  else (jpString rest).map (fun r => (c :: r.1, r.2))

/-- Decimal digit test. -/
def jpDigit (c : Char) : Bool := '0' ≤ c ∧ c ≤ '9'

/-- Value of a digit run. -/
def digitsToNat (ds : List Char) : Nat := ds.foldl (fun a c => a * 10 + (c.toNat - 48)) 0

/-- Parse a JSON integer literal (optional minus sign; a leading zero is a
complete token by itself, as in the JSON grammar). Fractions and exponents
are outside the modelled fragment. -/
def jpNumber (cs : List Char) : Option (Int × List Char) :=
  let sign : Bool × List Char := match cs with
    | '-' :: t => (true, t)
    | _ => (false, cs)
  match sign.2 with
  | [] => none
  | c :: t =>
    if c = '0' then some (0, t)
    else if '1' ≤ c ∧ c ≤ '9' then
      let ds := (c :: t).takeWhile jpDigit
      let rest := (c :: t).dropWhile jpDigit
      some (if sign.1 then -(digitsToNat ds : Int) else (digitsToNat ds : Int), rest)
    else none

/-- Insert a key into an object under construction with Python dict
semantics: an existing key keeps its position but takes the new value. -/
def jpDictInsert (acc : List (String × Json)) (k : String) (v : Json) : List (String × Json) :=
  if acc.any (fun m => m.1 == k) then acc.map (fun m => if m.1 == k then (k, v) else m)
  else acc ++ [(k, v)]

/-- Rebuild an ordered key/value list with dict update semantics. -/
def jpDict : List (String × Json) → List (String × Json) → List (String × Json)
| [], acc => acc
| (k, v) :: t, acc => jpDict t (jpDictInsert acc k v)

mutual

/-- Fuel-indexed recursive-descent parser for one JSON value, modelling
json.loads on the fragment described at Json. -/
def jpVal : Nat → List Char → Option (Json × List Char)
| 0, _ => none
| fuel + 1, cs =>
  match jpSkipWs cs with
  | 'n' :: 'u' :: 'l' :: 'l' :: rest => some (.null, rest)
  | 't' :: 'r' :: 'u' :: 'e' :: rest => some (.bool true, rest)
  | 'f' :: 'a' :: 'l' :: 's' :: 'e' :: rest => some (.bool false, rest)
  | c :: rest =>
    if c = '"' then (jpString rest).map (fun r => (.str ⟨r.1⟩, r.2))
    else if c = '[' then
      match jpSkipWs rest with
      | ']' :: rest2 => some (.arr [], rest2)
      | _ => (jpElems fuel rest).map (fun r => (.arr r.1, r.2))
    else if c = lbrace then
      match jpSkipWs rest with
      | c2 :: rest2 =>
        if c2 = rbrace then some (.obj [], rest2)
        else (jpMembers fuel rest).map (fun r => (.obj (jpDict r.1 []), r.2))
      | [] => none
    else jpNumber (c :: rest) |>.map (fun r => (.num r.1, r.2))
  | [] => none

/-- Parse the elements of a non-empty JSON array up to the closing bracket. -/
def jpElems : Nat → List Char → Option (List Json × List Char)
| 0, _ => none
| fuel + 1, cs =>
  match jpVal fuel cs with
  | none => none
  | some (v, rest) =>
    match jpSkipWs rest with
    | ',' :: rest2 => (jpElems fuel rest2).map (fun r => (v :: r.1, r.2))
    | ']' :: rest2 => some ([v], rest2)
    | _ => none

/-- Parse the members of a non-empty JSON object up to the closing brace. -/
def jpMembers : Nat → List Char → Option (List (String × Json) × List Char)
| 0, _ => none
| fuel + 1, cs =>
  match jpSkipWs cs with
  | c :: rest =>
    if c = '"' then
      match jpString rest with
      | none => none
      | some (k, rest2) =>
        match jpSkipWs rest2 with
        | ':' :: rest3 =>
          match jpVal fuel rest3 with
          | none => none
          | some (v, rest4) =>
            match jpSkipWs rest4 with
            | ',' :: rest5 => (jpMembers fuel rest5).map (fun r => ((⟨k⟩, v) :: r.1, r.2))
            | c2 :: rest5 => if c2 = rbrace then some ([(⟨k⟩, v)], rest5) else none
            | [] => none
        | _ => none
    else none
  | [] => none

end

/-- json.loads: parse one JSON document and reject trailing garbage,
returning none where the Python call raises json.JSONDecodeError. -/
def jsonParse (s : String) : Option Json :=
  match jpVal (2 * s.data.length + 4) s.data with
  | some (v, rest) => if jpSkipWs rest = [] then some v else none
  | none => none

/-- Six-bit value of a base64 alphabet character. -/
def b64Val (c : Char) : Option Nat :=
  if 'A' ≤ c ∧ c ≤ 'Z' then some (c.toNat - 65)
  else if 'a' ≤ c ∧ c ≤ 'z' then some (c.toNat - 71)
  else if '0' ≤ c ∧ c ≤ '9' then some (c.toNat + 4)
  else if c = '+' then some 62
  else if c = '/' then some 63
  else none

/-- Strip up to two trailing padding characters, returning the body and
the padding count. -/
def b64DropPad (cs : List Char) : List Char × Nat :=
  match cs.reverse with
  | '=' :: '=' :: t => (t.reverse, 2)
  | '=' :: t => (t.reverse, 1)
  | _ => (cs, 0)

/-- Convert a run of six-bit values into bytes, three per quantum, with a
short final quantum yielding one or two bytes. -/
def b64Quanta : List Nat → Option (List Nat)
| [] => some []
| [a, b] => some [a * 4 + b / 16]
| [a, b, c] => some [a * 4 + b / 16, (b % 16) * 16 + c / 4]
| a :: b :: c :: d :: rest =>
  (b64Quanta rest).map
    (fun bs => (a * 4 + b / 16) :: ((b % 16) * 16 + c / 4) :: ((c % 4) * 64 + d) :: bs)
| [_] => none

/-- base64.b64decode on canonical base64 text: all characters from the
base64 alphabet, correct trailing padding. Returns the decoded bytes, or
none where the Python call raises binascii.Error. -/
def b64decode (s : String) : Option (List Nat) :=
  let body := b64DropPad s.data
  match body.1.mapM b64Val with
  | none => none
  | some vals => if (vals.length + body.2) % 4 = 0 then b64Quanta vals else none

/-- bytes.decode("utf-8") restricted to ASCII payloads, the only ones the
tools feed it. -/
def asciiDecode (bs : List Nat) : Option String :=
  if bs.all (fun b => b < 128) then some ⟨bs.map Char.ofNat⟩ else none

/-- The fallback decode branch of try_decode_data
(tools/parse_workflow_templates.py lines 46-51): base64-decode the string,
decode the bytes as UTF-8, then JSON-parse the result; any failure along
the way is swallowed by the bare except and yields none. -/
def b64_json_decode (data : String) : Option Json :=
  match b64decode data with
  | none => none
  | some bs =>
    match asciiDecode bs with
    | none => none
    | some s => jsonParse s

/-- try_decode_data (tools/parse_workflow_templates.py lines 37-52) on a
string payload: direct JSON parse first, then the base64-then-JSON
fallback, none if both fail. The isinstance(data, dict) passthrough for
already-parsed inputs is not reachable for the string payloads modelled
here. -/
def try_decode_data (data : String) : Option Json :=
  match jsonParse data with
  | some j => some j
  | none => b64_json_decode data

/-- A decoded PIL image, reduced to the part the tools read: its info
dictionary of auxiliary text chunks. -/
structure PILImage where
  info : List (String × String)
deriving DecidableEq

/-- First-match association lookup (Python dict membership plus
indexing, for dicts whose keys are unique). -/
def lookupA {α : Type} (k : String) : List (String × α) → Option α
| [] => none
| (k2, v) :: t => if k2 = k then some v else lookupA k t

/-- The payload selection of extract_workflow_from_image: the value of the
parameters key if present, else the value of the workflow key. -/
def imageWorkflowField (img : PILImage) : Option String :=
  match lookupA "parameters" img.info with
  | some v => some v
  | none => lookupA "workflow" img.info

/-- extract_workflow_from_image (tools/crawlers/github_workflow_crawler.py
lines 84-111, identical logic in tools/crawlers/comfyui_crawler.py lines
135-162): a none argument models Image.open raising (caught, returns
None); otherwise read the parameters/workflow text chunk, skip a falsy
(empty) payload, and attempt a single direct json.loads — a parse failure
is logged and yields None, with no further fallback. -/
def extract_workflow_from_image (img : Option PILImage) : Option Json :=
  match img with
  | none => none
  | some im =>
    match imageWorkflowField im with
    | some payload => if payload = "" then none else jsonParse payload
    | none => none

/-- get_api_key (tools/civitai_image_search.py lines 24-31): the argument
is os.environ.get("CIVITAI_API_KEY"). A missing or empty value prints an
error and calls sys.exit(1), modelled as Except.error 1 (the process exit
code); otherwise the key is returned. -/
def get_api_key (env : Option String) : Except Nat String :=
  match env with
  | none => Except.error 1
  | some k => if k = "" then Except.error 1 else Except.ok k

/-- The request headers search_models builds (tools/civitai_image_search.py
lines 91-93): a bearer Authorization header exactly when a truthy api_key
was passed. -/
def search_models_headers (api_key : Option String) : List (String × String) :=
  match api_key with
  | none => []
  | some k => if k = "" then [] else [("Authorization", "Bearer " ++ k)]

/-- main of tools/civitai_image_search.py up to the point the search
request headers are fixed: it unconditionally calls get_api_key (exiting
when the environment variable is unset) and passes the key to
search_models. -/
def civitai_main_auth (env : Option String) : Except Nat (List (String × String)) :=
  match get_api_key env with
  | Except.error e => Except.error e
  | Except.ok k => Except.ok (search_models_headers (some k))

/-- ASCII lower-casing of one character, as str.lower acts on the ASCII
file names and URLs handled by the tools. -/
def asciiLowerC (c : Char) : Char :=
  if 'A' ≤ c ∧ c ≤ 'Z' then Char.ofNat (c.toNat + 32) else c

/-- str.lower on ASCII text. -/
def lowerStr (s : String) : String := ⟨s.data.map asciiLowerC⟩

/-- str.endswith. -/
def endsWithStr (suffix s : String) : Bool := suffix.data.isSuffixOf s.data

/-- os.path.basename on a POSIX path: the part after the last slash. -/
def basenameC (cs : List Char) : List Char :=
  (cs.reverse.takeWhile (fun c => !(c == '/'))).reverse

/-- The extension part of os.path.splitext: the substring from the last
dot of the basename, present only when some non-dot character of the
basename precedes that dot (so dotfiles such as .json have no extension). -/
def splitextExt (name : List Char) : List Char :=
  let rev := (basenameC name).reverse
  let pre := rev.takeWhile (fun c => !(c == '.'))
  if pre.length = rev.length then []
  else if (rev.drop (pre.length + 1)).any (fun c => !(c == '.')) then '.' :: pre.reverse
  else []

/-- The root part of os.path.splitext: the whole path minus the extension. -/
def splitextStem (name : String) : String :=
  ⟨name.data.take (name.data.length - (splitextExt name.data).length)⟩

/-- pathlib.PurePath.suffix on the final path component: the substring
from the last dot, present only when that dot is neither the first nor
the last character of the component. -/
def pathSuffixC (base : List Char) : List Char :=
  let rev := base.reverse
  let pre := rev.takeWhile (fun c => !(c == '.'))
  if 0 < pre.length ∧ pre.length + 1 < rev.length then '.' :: pre.reverse else []

/-- pathlib.PurePath.suffix of a file name. -/
def pathSuffix (name : String) : String := ⟨pathSuffixC (basenameC name.data)⟩

/-- pathlib.PurePath.stem of a file name: the final path component minus
its suffix. -/
def pathStem (name : String) : String :=
  let base := basenameC name.data
  ⟨base.take (base.length - (pathSuffixC base).length)⟩

mutual

/-- json.dump of a JSON value: a fixed deterministic serialization (the
tools only rely on the output being a deterministic function of the
value, not on its exact spacing; string escaping is not re-applied since
the embedded values carry plain text). -/
def serialize : Json → String
| .null => "null"
| .bool true => "true"
| .bool false => "false"
| .num n => toString n
| .str s => "\"" ++ s ++ "\""
| .arr es => "[" ++ serializeElems es ++ "]"
| .obj ms => ⟨[lbrace]⟩ ++ serializeMembers ms ++ ⟨[rbrace]⟩

/-- Comma-separated serialization of array elements. -/
def serializeElems : List Json → String
| [] => ""
| [e] => serialize e
| e :: rest => serialize e ++ ", " ++ serializeElems rest

/-- Comma-separated serialization of object members. -/
def serializeMembers : List (String × Json) → String
| [] => ""
| [(k, v)] => "\"" ++ k ++ "\": " ++ serialize v
| (k, v) :: rest => "\"" ++ k ++ "\": " ++ serialize v ++ ", " ++ serializeMembers rest

end

/-- Remove every binding of a path from the modelled filesystem. -/
def eraseKey (k : String) : List (String × String) → List (String × String)
| [] => []
| (k2, v) :: t => if k2 = k then eraseKey k t else (k2, v) :: eraseKey k t

/-- Writing a file: open(path, "w") replaces whatever content the path
previously had. -/
def fsWrite (fs : List (String × String)) (p v : String) : List (String × String) :=
  (p, v) :: eraseKey p fs

/-- The destination path computed by save_workflow_as_json
(tools/crawlers/comfyui_crawler.py lines 173-177): output directory
joined with the image basename, its extension stripped by os.path.splitext,
plus the fixed _workflow suffix and the .json extension. -/
def workflow_json_path (image_path output_dir : String) : String :=
  output_dir ++ "/" ++ (splitextStem ⟨basenameC image_path.data⟩ ++ "_workflow.json")

/-- save_workflow_as_json (tools/crawlers/comfyui_crawler.py lines
164-188): a falsy workflow value is rejected up front; otherwise the
destination path is computed and the serialized document is written
unconditionally — the function performs no existence check before the
write. Returns the written path (or none) with the updated filesystem. -/
def save_workflow_as_json (workflow_data : Json) (image_path output_dir : String)
    (fs : List (String × String)) : Option String × List (String × String) :=
  if !workflow_data.truthy then (none, fs)
  else
    let json_path := workflow_json_path image_path output_dir
    (some json_path, fsWrite fs json_path (serialize workflow_data))

/-- The hardcoded template directory of tools/parse_workflow_templates.py. -/
def TEMPLATE_DIR : String := "tools/workflow_templates"

/-- extract_workflow_from_image as defined in
tools/parse_workflow_templates.py lines 7-34. The module never defines
logger, so every branch that logs — image-decode failure, a missing or
falsy payload, a JSON parse failure — raises NameError out of the
function (the inner logging NameError is re-caught once and re-raised by
the logging call of the outer handler); only a successful json.loads
returns. The crash is modelled as Except.error. -/
def templates_extract (img : Option PILImage) : Except Unit Json :=
  match img with
  | none => Except.error ()
  | some im =>
    match imageWorkflowField im with
    | some payload =>
      if payload = "" then Except.error ()
      else
        match jsonParse payload with
        | some j => Except.ok j
        | none => Except.error ()
    | none => Except.error ()

/-- The per-file body of main in tools/parse_workflow_templates.py lines
59-81: extract the metadata of one PNG file and, when the result is
truthy, write it to the template directory under the file stem plus the
fixed _metadata suffix and the .json extension; a falsy result writes
nothing. -/
def templates_main_step (filename : String) (img : Option PILImage)
    (fs : List (String × String)) : Except Unit (List (String × String)) :=
  match templates_extract img with
  | Except.error e => Except.error e
  | Except.ok workflow_data =>
    Except.ok
      (if workflow_data.truthy then
        fsWrite fs (TEMPLATE_DIR ++ "/" ++ (splitextStem filename ++ "_metadata.json"))
          (serialize workflow_data)
      else fs)

/-- urlparse(url).path: for an absolute http(s) URL the path component
after the authority, cut before any query or fragment; for a plain
relative reference the text before any query or fragment. Other URL
shapes (exotic schemes) are outside the modelled subset. -/
def urlPathC (cs : List Char) : List Char :=
  let tail :=
    if "https://".data.isPrefixOf cs then
      (cs.drop 8).dropWhile (fun c => !(c == '/') && !(c == '?') && !(c == '#'))
    else if "http://".data.isPrefixOf cs then
      (cs.drop 7).dropWhile (fun c => !(c == '/') && !(c == '?') && !(c == '#'))
    else cs
  tail.takeWhile (fun c => !(c == '?') && !(c == '#'))

/-- String-level urlparse(url).path. -/
def urlPath (s : String) : String := ⟨urlPathC s.data⟩

/-- The name derivation branch of download_model_file
(tools/civitai_image_search.py lines 157-163) when no filename is
supplied: basename of the URL path, or a timestamp-based fallback with
the default extension when that basename is empty or shorter than five
characters. -/
def deriveFromUrl (url ts : String) : String :=
  let base : String := ⟨basenameC (urlPathC url.data)⟩
  if base = "" ∨ base.data.length < 5 then "civitai_model_" ++ ts ++ ".safetensors"
  else base

/-- The full filename choice of download_model_file
(tools/civitai_image_search.py lines 156-167): use the supplied filename
when truthy, otherwise derive one from the URL; then append the default
.safetensors extension whenever the chosen name has no extension. -/
def chooseDownloadFilename (url : String) (filename : Option String) (ts : String) : String :=
  let fname :=
    match filename with
    | some f => if f = "" then deriveFromUrl url ts else f
    | none => deriveFromUrl url ts
  if splitextExt fname.data = [] then fname ++ ".safetensors" else fname

/-- Download-side state: the set of directories that exist and the files
written so far. -/
structure DLState where
  dirs : List String
  files : List (String × String)
deriving DecidableEq

/-- download_model_file (tools/civitai_image_search.py lines 136-195):
create the output directory (mkdir parents, exist_ok), choose the
filename, and stream the response body to the joined path. The body
argument stands for the downloaded bytes; ts is the strftime timestamp
read when the fallback name is needed. -/
def download_model_file (url output_dir : String) (filename : Option String)
    (ts body : String) (st : DLState) : DLState × String :=
  let st1 : DLState := { st with dirs := output_dir :: st.dirs }
  let fname := chooseDownloadFilename url filename ts
  let file_path := output_dir ++ "/" ++ fname
  ({ st1 with files := fsWrite st1.files file_path body }, file_path)

/-- The file-type filter selected on the command line. -/
inductive FileType where
| json : FileType
| image : FileType
deriving DecidableEq

/-- SUPPORTED_IMAGE_EXTENSIONS of
tools/crawlers/github_workflow_crawler.py. -/
def SUPPORTED_IMAGE_EXTENSIONS : List String := [".png", ".jpg", ".jpeg"]

/-- A fetched file as the crawler sees it: the response text (read for
JSON files) and the decoded image (read for image files; none models a
body PIL cannot decode). A directory listing entry whose download fails
with a non-200 status is modelled by passing none for the whole record. -/
structure FetchedFile where
  text : String
  image : Option PILImage

/-- The per-file filter of process_directory
(tools/crawlers/github_workflow_crawler.py lines 171-173): JSON mode
keeps names ending in .json, image mode keeps names whose lower-cased
pathlib suffix is a supported image extension. -/
def matchesType (ft : FileType) (name : String) : Bool :=
  match ft with
  | .json => endsWithStr ".json" name
  | .image => SUPPORTED_IMAGE_EXTENSIONS.contains (lowerStr (pathSuffix name))

/-- download_file (tools/crawlers/github_workflow_crawler.py lines
113-159) for a listing entry of type file: re-check the name against the
requested type, fail on a failed fetch, then either validate the text as
JSON (keeping the name unchanged) or extract a workflow from the image
(renaming to the pathlib stem plus .json, and dropping a falsy extracted
value). -/
def download_file (ft : FileType) (name : String) (fetched : Option FetchedFile) :
    Option (String × Json) :=
  if ft = FileType.json ∧ endsWithStr ".json" name = false then none
  else if ft = FileType.image ∧
      SUPPORTED_IMAGE_EXTENSIONS.contains (lowerStr (pathSuffix name)) = false then none
  else
    match fetched with
    | none => none
    | some f =>
      match ft with
      | .json => (jsonParse f.text).map (fun j => (name, j))
      | .image =>
        match extract_workflow_from_image f.image with
        | some workflow_json =>
          if workflow_json.truthy then some (pathStem name ++ ".json", workflow_json)
          else none
        | none => none

/-- One entry of a hosted-tree listing: a file with its fetch outcome, a
directory whose own listing succeeds with the given children, or a
directory whose listing request returns the given non-200 status (the
FetchError raised by get_repo_contents via raise_for_status). -/
inductive GEntry where
| file (name : String) (fetched : Option FetchedFile) : GEntry
| dirOk (name : String) (children : List GEntry) : GEntry
| dirErr (name : String) (status : Nat) : GEntry

/-- The run statistics threaded through process_directory together with
the output directory contents. -/
structure PState where
  totalFiles : Nat
  downloadedFiles : Nat
  fs : List (String × String)

/-- process_directory (tools/crawlers/github_workflow_crawler.py lines
161-194) over a directory listing: count and download each matching file,
writing its JSON to the output directory; recurse into subdirectories
when recursion is enabled. An uncaught FetchError from listing a nested
subdirectory is modelled by the some-status component: it stops the
traversal immediately with the filesystem as written so far, exactly as
the Python exception propagates out of the recursion (main catches it
only to log and re-raise). -/
def process_directory (ft : FileType) (recursive : Bool) (output_dir : String) :
    List GEntry → PState → PState × Option Nat
| [], st => (st, none)
| GEntry.file name fetched :: es, st =>
  if matchesType ft name then
    let st1 : PState := { st with totalFiles := st.totalFiles + 1 }
    match download_file ft name fetched with
    | some fd =>
      process_directory ft recursive output_dir es
        { st1 with
          downloadedFiles := st1.downloadedFiles + 1,
          fs := fsWrite st1.fs (output_dir ++ "/" ++ fd.1) (serialize fd.2) }
    | none => process_directory ft recursive output_dir es st1
  else process_directory ft recursive output_dir es st
| GEntry.dirOk _ children :: es, st =>
  if recursive then
    match process_directory ft recursive output_dir children st with
    | (st1, none) => process_directory ft recursive output_dir es st1
    | (st1, some s) => (st1, some s)
  else process_directory ft recursive output_dir es st
| GEntry.dirErr _ status :: es, st =>
  if recursive then (st, some status)
  else process_directory ft recursive output_dir es st

/-- The number of files across a listing (recursively including
successfully listed subdirectories) whose names match the requested file
type — the quantity total_files counts during a successful traversal. -/
def count_matching_files (ft : FileType) : List GEntry → Nat
| [] => 0
| GEntry.file name _ :: es =>
  (if matchesType ft name then 1 else 0) + count_matching_files ft es
| GEntry.dirOk _ children :: es =>
  count_matching_files ft children + count_matching_files ft es
| GEntry.dirErr _ _ :: es => count_matching_files ft es

/-- is_image_url (tools/crawlers/comfyui_crawler.py lines 10-15): the URL
path component, lower-cased, ends with one of the image extensions. -/
def is_image_url (url : String) : Bool :=
  [".jpg", ".jpeg", ".png", ".gif", ".webp"].any
    (fun ext => endsWithStr ext (lowerStr (urlPath url)))

/-- The scheme-plus-host prefix of an absolute http(s) URL, used to
resolve root-relative references. -/
def schemeHost (cs : List Char) : List Char :=
  if "https://".data.isPrefixOf cs then
    "https://".data ++ (cs.drop 8).takeWhile (fun c => !(c == '/'))
  else if "http://".data.isPrefixOf cs then
    "http://".data ++ (cs.drop 7).takeWhile (fun c => !(c == '/'))
  else []

/-- The base URL up to and including its last slash, used to resolve
plain relative references. -/
def dirPart (cs : List Char) : List Char :=
  (cs.reverse.dropWhile (fun c => !(c == '/'))).reverse

/-- urllib.parse.urljoin restricted to the reference shapes the crawler
produces: an absolute http(s) reference replaces the base, a
root-relative reference is resolved against the scheme and host of the
base, and a plain relative reference (no dot segments) is resolved
against the directory of the base. -/
def urljoin (base rel : String) : String :=
  if "http://".data.isPrefixOf rel.data ∨ "https://".data.isPrefixOf rel.data then rel
  else
    match rel.data with
    | '/' :: _ => ⟨schemeHost base.data ++ rel.data⟩
    | _ => ⟨dirPart base.data ++ rel.data⟩

/-- One fetched HTML page as the crawler reads it with BeautifulSoup:
the href values of its anchor tags and the src values of its img tags. -/
structure WPage where
  links : List String
  imgs : List String

/-- list(set(...)): de-duplication by exact URI string. The Python set
iteration order is unspecified; first occurrence order is used here, and
the discovery statements depend only on the resulting membership and
count. -/
def dedupAux : List String → List String → List String
| [], _ => []
| x :: xs, seen => if seen.contains x then dedupAux xs seen else x :: dedupAux xs (x :: seen)

/-- De-duplication entry point. -/
def dedupStr (l : List String) : List String := dedupAux l []

/-- The images harvested from one example sub-page (tools/crawlers/
comfyui_crawler.py lines 90-115): its img tag sources resolved against
the page URL, then its direct image links; a page whose fetch fails
contributes nothing (the per-page exception is caught). -/
def subPageImages (web : List (String × WPage)) (page_url : String) : List String :=
  match lookupA page_url web with
  | none => []
  | some sp =>
    (sp.imgs.filter (fun s => !(s == ""))).map (fun src => urljoin page_url src) ++
    ((sp.links.filter (fun h => !(h == "") && is_image_url h)).map
      (fun h => urljoin page_url h))

/-- The discovery phase of crawl_images (tools/crawlers/comfyui_crawler.py
lines 54-123): fetch the root page (an unreachable root yields nothing),
collect its direct image links, visit each truthy same-site sub-page link
(a relative, non-fragment, non-image href) exactly once — one level deep,
with no recursion into sub-pages of sub-pages — collect the sub-page
images, and de-duplicate the full list by exact URI string before any
download. -/
def crawl_image_urls (web : List (String × WPage)) (base_url : String) : List String :=
  match lookupA base_url web with
  | none => []
  | some page =>
    let hrefs := page.links.filter (fun h => !(h == ""))
    let direct := (hrefs.filter is_image_url).map (fun h => urljoin base_url h)
    let example_pages :=
      (hrefs.filter (fun h =>
        !(is_image_url h) && !("#".data.isPrefixOf h.data) &&
          !("http".data.isPrefixOf h.data))).map (fun h => urljoin base_url h)
    dedupStr (direct ++ (example_pages.map (subPageImages web)).flatten)

/-- The optional scheme group of the URL patterns in parse_github_url:
strip a leading http:// or https:// if present. -/
def dropSchemeC : List Char → List Char
| 'h' :: 't' :: 't' :: 'p' :: 's' :: ':' :: '/' :: '/' :: rest => rest
| 'h' :: 't' :: 't' :: 'p' :: ':' :: '/' :: '/' :: rest => rest
| cs => cs

/-- The optional www group: strip a leading www. if present. -/
def dropWwwC : List Char → List Char
| 'w' :: 'w' :: 'w' :: '.' :: rest => rest
| cs => cs

/-- The literal host part of the patterns: the text after github.com/
when the input starts with it, none otherwise (no match). -/
def afterHostC : List Char → Option (List Char)
| 'g' :: 'i' :: 't' :: 'h' :: 'u' :: 'b' :: '.' :: 'c' :: 'o' :: 'm' :: '/' :: rest => some rest
| _ => none

/-- Split a character list on slashes (the segment view the patterns
take: each segment is a maximal slash-free run, with empty segments at
doubled, leading or trailing slashes). -/
def splitSlash : List Char → List (List Char)
| [] => [[]]
| c :: cs =>
  if c = '/' then [] :: splitSlash cs
  else
    match splitSlash cs with
    | [] => [[c]]
    | g :: gs => (c :: g) :: gs

/-- Rejoin segments with slashes; inverse of splitSlash. -/
def joinSlash : List (List Char) → List Char
| [] => []
| [g] => g
| g :: gs => g ++ '/' :: joinSlash gs

/-- parse_github_url (tools/crawlers/github_workflow_crawler.py lines
42-66) on the character level. The basic pattern takes owner and repo
from the first two slash-free segments after the host; the tree pattern
additionally requires a literal tree segment, a non-empty branch segment
and a non-empty remainder, in which case the path is that remainder and
repo is re-truncated at a slash (a no-op, since a segment contains no
slash). The matched branch segment is logged and discarded: the result
carries only owner, repo and path. -/
def parseGH (cs : List Char) : Option (List Char × List Char × List Char) :=
  match afterHostC (dropWwwC (dropSchemeC cs)) with
  | none => none
  | some rest =>
    match splitSlash rest with
    | owner :: repo :: tail =>
      if owner = [] ∨ repo = [] then none
      else
        match tail with
        | t :: b :: p :: ps =>
          if t = "tree".data ∧ b ≠ [] ∧ joinSlash (p :: ps) ≠ [] then
            some (owner, (splitSlash repo).headD [], joinSlash (p :: ps))
          else some (owner, repo, [])
        | _ => some (owner, repo, [])
    | _ => none

/-- parse_github_url at the string level: owner, repo and path, or a
ValueError for an unrecognized URL (modelled as none). -/
def parse_github_url (url : String) : Option (String × String × String) :=
  (parseGH url.data).map (fun res => (⟨res.1⟩, ⟨res.2.1⟩, ⟨res.2.2⟩))

/-- The GitHub API base URL constant. -/
def GITHUB_API_URL : String := "https://api.github.com"

/-- The contents-endpoint URL built by get_repo_contents
(tools/crawlers/github_workflow_crawler.py lines 68-74): owner, repo and
an optional path — no ref or branch parameter exists anywhere in the
request. -/
def get_repo_contents_url (owner repo path : String) : String :=
  GITHUB_API_URL ++ "/repos/" ++ owner ++ "/" ++ repo ++ "/contents" ++
    (if path = "" then "" else "/" ++ path)

/-- C3 counterexample: an image whose workflow text chunk is the base64
encoding of the JSON text for the object with a = 1. Decoding it manually
through the base64-then-JSON path yields that object (and the unused
helper try_decode_data would return it), but the extraction path actually
applied to images, extract_workflow_from_image, returns no document: it
has no base64 fallback. -/
theorem C3_counterexample :
    extract_workflow_from_image (some ⟨[("workflow", "eyJhIjogMX0=")]⟩) = none ∧
    b64_json_decode "eyJhIjogMX0=" = some (Json.obj [("a", Json.num 1)]) ∧
    try_decode_data "eyJhIjogMX0=" = some (Json.obj [("a", Json.num 1)]) := by
  refine ⟨rfl, rfl, rfl⟩

/-- C3 (amended): the direct-JSON-then-base64 fallback exists only in the
helper try_decode_data, which the pipeline never invokes; the image
extraction path attempts direct JSON parsing only, so a payload that fails
direct parsing yields no document even when its base64 decoding is valid
JSON. -/
theorem C3_extract_has_no_base64_fallback (payload : String) (j : Json)
    (hd : jsonParse payload = none) (hb : b64_json_decode payload = some j) :
    try_decode_data payload = some j ∧
    extract_workflow_from_image (some ⟨[("workflow", payload)]⟩) = none := by
  constructor
  · unfold try_decode_data
    rw [hd]
    exact hb
  · simp only [extract_workflow_from_image, imageWorkflowField, lookupA]
    simp only [show ("workflow" = "parameters") = False by simp, if_false,
      show ("workflow" = "workflow") = True by simp, if_true, hd, ite_self]

/-- C3 witness: the amended theorem applied at the concrete base64
payload. -/
theorem C3_witness :
    try_decode_data "eyJhIjogMX0=" = some (Json.obj [("a", Json.num 1)]) ∧
    extract_workflow_from_image (some ⟨[("workflow", "eyJhIjogMX0=")]⟩) = none :=
  C3_extract_has_no_base64_fallback "eyJhIjogMX0=" (Json.obj [("a", Json.num 1)]) rfl rfl

/-- C4 counterexample: with no API token in the environment the program
does fail — get_api_key prints an error and exits with status 1 before
any request is made, so execution never degrades to anonymous access. -/
theorem C4_counterexample :
    civitai_main_auth none = Except.error 1 ∧ get_api_key none = Except.error 1 := by
  refine ⟨rfl, rfl⟩

/-- C4 (amended): search_models attaches a bearer Authorization header
exactly when a truthy token is passed and sends no header otherwise, but
the program entry point requires the environment token: get_api_key exits
with code 1 when it is absent, so a missing token is fatal at startup
rather than degraded to anonymous access. -/
theorem C4_bearer_header_iff_token (k : String) (hk : k ≠ "") :
    civitai_main_auth (some k) = Except.ok [("Authorization", "Bearer " ++ k)] ∧
    search_models_headers (some k) = [("Authorization", "Bearer " ++ k)] ∧
    search_models_headers none = [] ∧
    civitai_main_auth none = Except.error 1 := by
  refine ⟨?_, ?_, rfl, rfl⟩
  · simp [civitai_main_auth, get_api_key, search_models_headers, hk]
  · simp [search_models_headers, hk]

/-- C4 witness: the amended theorem applied at a concrete token. -/
theorem C4_witness :
    civitai_main_auth (some "tok") = Except.ok [("Authorization", "Bearer " ++ "tok")] ∧
    search_models_headers (some "tok") = [("Authorization", "Bearer " ++ "tok")] ∧
    search_models_headers none = [] ∧
    civitai_main_auth none = Except.error 1 :=
  C4_bearer_header_iff_token "tok" (by decide)

/-- Helper: erasing a path twice is the same as erasing it once. -/
theorem eraseKey_eraseKey (k : String) (fs : List (String × String)) :
    eraseKey k (eraseKey k fs) = eraseKey k fs := by
  induction fs with
  | nil => rfl
  | cons e t ih =>
    by_cases h : e.1 = k
    · simp [eraseKey, h, ih]
    · simp [eraseKey, h, ih]

/-- Helper: rewriting a path with the same content changes nothing. -/
theorem fsWrite_fsWrite (fs : List (String × String)) (p v : String) :
    fsWrite (fsWrite fs p v) p v = fsWrite fs p v := by
  simp [fsWrite, eraseKey, eraseKey_eraseKey]

/-- C1 counterexample: a file already exists at the computed destination
path with different content, yet persist does not return Skipped — it
returns the written path and replaces the content on disk. -/
theorem C1_counterexample :
    (save_workflow_as_json (Json.obj [("a", Json.num 1)]) "img.png" "out"
        [("out/img_workflow.json", "OLD")]).1 = some "out/img_workflow.json" ∧
    (save_workflow_as_json (Json.obj [("a", Json.num 1)]) "img.png" "out"
        [("out/img_workflow.json", "OLD")]).2 =
      [("out/img_workflow.json", serialize (Json.obj [("a", Json.num 1)]))] ∧
    serialize (Json.obj [("a", Json.num 1)]) ≠ "OLD" := by
  refine ⟨rfl, rfl, by decide⟩

/-- C1 (amended): persist performs no existence check and always writes:
after a run the computed path holds the serialized document regardless of
what was there before, and the reported path is the written path, never a
Skipped marker. Because serialization is deterministic, a second run with
the same document and destination leaves the filesystem exactly as the
first run left it (idempotent in content), but it does overwrite rather
than skip; the only existence-and-skip check in the tools is in the image
download step (download_image), not in persist. -/
theorem C1_persist_always_writes (wd : Json) (image_path output_dir : String)
    (fs : List (String × String)) (h : wd.truthy = true) :
    save_workflow_as_json wd image_path output_dir
        (save_workflow_as_json wd image_path output_dir fs).2 =
      save_workflow_as_json wd image_path output_dir fs ∧
    lookupA (workflow_json_path image_path output_dir)
        (save_workflow_as_json wd image_path output_dir fs).2 = some (serialize wd) ∧
    (save_workflow_as_json wd image_path output_dir fs).1 =
      some (workflow_json_path image_path output_dir) := by
  refine ⟨?_, ?_, ?_⟩
  · simp [save_workflow_as_json, h, fsWrite_fsWrite]
  · simp [save_workflow_as_json, h, fsWrite, lookupA]
  · simp [save_workflow_as_json, h]

/-- C1 witness: the amended theorem applied to a concrete document,
destination and pre-populated filesystem. -/
theorem C1_witness :
    save_workflow_as_json (Json.num 7) "img.png" "out"
        (save_workflow_as_json (Json.num 7) "img.png" "out"
          [("out/img_workflow.json", "OLD")]).2 =
      save_workflow_as_json (Json.num 7) "img.png" "out"
        [("out/img_workflow.json", "OLD")] ∧
    lookupA (workflow_json_path "img.png" "out")
        (save_workflow_as_json (Json.num 7) "img.png" "out"
          [("out/img_workflow.json", "OLD")]).2 = some (serialize (Json.num 7)) ∧
    (save_workflow_as_json (Json.num 7) "img.png" "out"
        [("out/img_workflow.json", "OLD")]).1 =
      some (workflow_json_path "img.png" "out") :=
  C1_persist_always_writes (Json.num 7) "img.png" "out"
    [("out/img_workflow.json", "OLD")] (by decide)

/-- Helper: processing a concatenated listing processes the prefix first
and continues with the rest only when the prefix raised no error. -/
theorem process_directory_append (ft : FileType) (recursive : Bool) (output_dir : String)
    (xs ys : List GEntry) (st : PState) :
    process_directory ft recursive output_dir (xs ++ ys) st =
      match process_directory ft recursive output_dir xs st with
      | (st1, none) => process_directory ft recursive output_dir ys st1
      | (st1, some s) => (st1, some s) := by
  induction xs generalizing st with
  | nil => simp [process_directory]
  | cons e xs ih =>
    rw [List.cons_append]
    cases e with
    | file name fetched =>
      by_cases h : matchesType ft name
      · simp only [process_directory, h, if_true]
        cases hd : download_file ft name fetched with
        | some fd =>
          dsimp only
          rw [ih]
        | none =>
          dsimp only
          rw [ih]
      · simp only [process_directory, if_neg h]
        exact ih st
    | dirOk name children =>
      cases recursive with
      | true =>
        simp only [process_directory, eq_self_iff_true, if_true]
        cases hc : process_directory ft true output_dir children st with
        | mk st1 r =>
          cases r with
          | none =>
            simp only [eq_self_iff_true, if_true]
            rw [ih]
          | some s =>
            simp only [eq_self_iff_true, if_true]
      | false =>
        simp only [process_directory]
        rw [if_neg (by decide), if_neg (by decide)]
        exact ih st
    | dirErr name status =>
      cases recursive with
      | true =>
        simp only [process_directory, eq_self_iff_true, if_true]
      | false =>
        simp only [process_directory]
        rw [if_neg (by decide), if_neg (by decide)]
        exact ih st

/-- C2 counterexample: a run over a root listing with two healthy sibling
subdirectories around one whose listing fails with 404. The nested 404
terminates the whole run (the result carries the fatal status 404 and the
second healthy sibling is never visited: only the first file was
downloaded), whereas the same listing without the failing directory
completes with both files — so a nested-subdirectory 404 is not confined
to its subtree and is exactly as fatal as a root 404. -/
theorem C2_counterexample :
    process_directory FileType.json true "out"
        [GEntry.dirOk "a" [GEntry.file "x.json" (some ⟨"1", none⟩)],
         GEntry.dirErr "b" 404,
         GEntry.dirOk "c" [GEntry.file "y.json" (some ⟨"2", none⟩)]] ⟨0, 0, []⟩ =
      (⟨1, 1, [("out/x.json", "1")]⟩, some 404) ∧
    process_directory FileType.json true "out"
        [GEntry.dirOk "a" [GEntry.file "x.json" (some ⟨"1", none⟩)],
         GEntry.dirOk "c" [GEntry.file "y.json" (some ⟨"2", none⟩)]] ⟨0, 0, []⟩ =
      (⟨2, 2, [("out/y.json", "2"), ("out/x.json", "1")]⟩, none) := by
  constructor
  · simp only [process_directory]
    rfl
  · simp only [process_directory]
    rfl

/-- C2 (amended): a FetchError raised while listing any subdirectory —
nested or not — is caught nowhere inside the traversal: it aborts the
entire run with that status, exactly like a 404 on the requested root
path. Siblings processed before the failing directory keep the files
already written, and siblings after it are never visited (the result is
independent of the trailing entries). -/
theorem C2_nested_listing_error_aborts_run (ft : FileType) (output_dir nm : String)
    (pre post : List GEntry) (s : Nat) (st : PState)
    (h : (process_directory ft true output_dir pre st).2 = none) :
    process_directory ft true output_dir (pre ++ GEntry.dirErr nm s :: post) st =
      ((process_directory ft true output_dir pre st).1, some s) := by
  rw [process_directory_append]
  rcases hp : process_directory ft true output_dir pre st with ⟨st1, r⟩
  rw [hp] at h
  cases r with
  | none => simp [process_directory]
  | some q => exact absurd h (by simp)

/-- C2 witness: the amended theorem applied to a concrete prefix, failing
directory and suffix. -/
theorem C2_witness :
    process_directory FileType.json true "out"
        ([GEntry.file "x.json" (some ⟨"1", none⟩)] ++ GEntry.dirErr "b" 403 ::
          [GEntry.file "y.json" (some ⟨"2", none⟩)]) ⟨0, 0, []⟩ =
      ((process_directory FileType.json true "out"
          [GEntry.file "x.json" (some ⟨"1", none⟩)] ⟨0, 0, []⟩).1, some 403) :=
  C2_nested_listing_error_aborts_run FileType.json "out" "b"
    [GEntry.file "x.json" (some ⟨"1", none⟩)]
    [GEntry.file "y.json" (some ⟨"2", none⟩)] 403 ⟨0, 0, []⟩
    (by simp only [process_directory]; rfl)

/-- Helper: the count of a listing splits off its head entry. -/
theorem count_matching_files_cons (ft : FileType) (e : GEntry) (es : List GEntry) :
    count_matching_files ft (e :: es) =
      count_matching_files ft [e] + count_matching_files ft es := by
  cases e <;> simp [count_matching_files]

/-- Helper: the subtree count is the sum of the per-entry counts. -/
theorem count_matching_files_eq_sum (ft : FileType) (es : List GEntry) :
    count_matching_files ft es = (es.map (fun e => count_matching_files ft [e])).sum := by
  induction es with
  | nil => simp [count_matching_files]
  | cons e es ih => rw [count_matching_files_cons, ih, List.map_cons, List.sum_cons]

/-- Helper: on a traversal that raises no listing error, total_files grows
by exactly the number of matching-type files in the whole subtree. -/
theorem process_directory_total_count (ft : FileType) (output_dir : String)
    (es : List GEntry) (st : PState) :
    (process_directory ft true output_dir es st).2 = none →
    (process_directory ft true output_dir es st).1.totalFiles =
      st.totalFiles + count_matching_files ft es := by
  induction es, st using process_directory.induct ft true output_dir with
  | case1 st =>
    intro _
    simp [process_directory, count_matching_files]
  | case2 name fetched es st hmatch stlet fd hdl ih =>
    intro h
    simp only [process_directory, hmatch, if_true, hdl] at h ⊢
    rw [ih h]
    simp only [count_matching_files, hmatch, if_true]
    omega
  | case3 name fetched es st hmatch stlet hdl ih =>
    intro h
    simp only [process_directory, hmatch, if_true, hdl] at h ⊢
    rw [ih h]
    simp only [count_matching_files, hmatch, if_true]
    omega
  | case4 name fetched es st hmatch ih =>
    intro h
    simp only [process_directory, if_neg hmatch] at h ⊢
    rw [ih h]
    simp only [count_matching_files]
    rw [if_neg hmatch]
    omega
  | case5 name children es st hrec st1 hchild ihc ih =>
    intro h
    simp only [process_directory, eq_self_iff_true, if_true, hchild] at h ⊢
    rw [ih h, count_matching_files_cons]
    have hc := ihc (by rw [hchild])
    rw [hchild] at hc
    simp only [count_matching_files] at hc ⊢
    omega
  | case6 name children es st hrec st1 s hchild ihc =>
    intro h
    simp only [process_directory, eq_self_iff_true, if_true, hchild] at h
    exact Option.noConfusion h
  | case7 name children es st hrec ih =>
    exact absurd rfl hrec
  | case8 name status es st hrec =>
    intro h
    simp only [process_directory, eq_self_iff_true, if_true] at h
    exact Option.noConfusion h
  | case9 name status es st hrec ih =>
    exact absurd rfl hrec

/-- C7: on a recursive hosted-tree run whose discovery raises no error,
the reported total_files equals the number of matching-type files across
the entire subtree, and that number is invariant under any permutation of
the sibling entries of the listing — the traversal order cannot change
it. -/
theorem C7_total_files_counts_subtree (ft : FileType) (output_dir : String)
    (es : List GEntry) (st : PState)
    (h : (process_directory ft true output_dir es st).2 = none) :
    (process_directory ft true output_dir es st).1.totalFiles =
      st.totalFiles + count_matching_files ft es ∧
    ∀ es2 : List GEntry, es.Perm es2 →
      count_matching_files ft es2 = count_matching_files ft es := by
  refine ⟨process_directory_total_count ft output_dir es st h, ?_⟩
  intro es2 hperm
  rw [count_matching_files_eq_sum, count_matching_files_eq_sum]
  exact ((hperm.map (fun e => count_matching_files ft [e])).sum_eq).symm

/-- C7 witness: the theorem applied to a concrete mixed tree of two
matching JSON files (one nested), one non-matching file and one image. -/
theorem C7_witness :
    (process_directory FileType.json true "out"
        [GEntry.file "a.json" (some ⟨"1", none⟩),
         GEntry.dirOk "d" [GEntry.file "b.json" none, GEntry.file "c.png" none],
         GEntry.file "x.txt" none] ⟨0, 0, []⟩).1.totalFiles =
      (⟨0, 0, ([] : List (String × String))⟩ : PState).totalFiles +
        count_matching_files FileType.json
          [GEntry.file "a.json" (some ⟨"1", none⟩),
           GEntry.dirOk "d" [GEntry.file "b.json" none, GEntry.file "c.png" none],
           GEntry.file "x.txt" none] ∧
    ∀ es2 : List GEntry,
      List.Perm
        [GEntry.file "a.json" (some ⟨"1", none⟩),
         GEntry.dirOk "d" [GEntry.file "b.json" none, GEntry.file "c.png" none],
         GEntry.file "x.txt" none] es2 →
      count_matching_files FileType.json es2 =
        count_matching_files FileType.json
          [GEntry.file "a.json" (some ⟨"1", none⟩),
           GEntry.dirOk "d" [GEntry.file "b.json" none, GEntry.file "c.png" none],
           GEntry.file "x.txt" none] :=
  C7_total_files_counts_subtree FileType.json "out"
    [GEntry.file "a.json" (some ⟨"1", none⟩),
     GEntry.dirOk "d" [GEntry.file "b.json" none, GEntry.file "c.png" none],
     GEntry.file "x.txt" none] ⟨0, 0, []⟩
    (by simp only [process_directory]; rfl)

/-- C10: an embedded payload that parses to a falsy JSON value (empty
object, null, 0, false or the empty string) is treated exactly like a
missing workflow: the image branch of download_file returns no document,
save_workflow_as_json rejects it and leaves the filesystem untouched, and
the template parser writes nothing — even though the payload is
syntactically valid JSON. -/
theorem C10_falsy_workflow_not_persisted (payload : String) (v : Json)
    (name imgPath outDir fname txt : String) (fs : List (String × String))
    (hp : jsonParse payload = some v) (hf : v.truthy = false)
    (_hext : SUPPORTED_IMAGE_EXTENSIONS.contains (lowerStr (pathSuffix name)) = true) :
    download_file FileType.image name (some ⟨txt, some ⟨[("workflow", payload)]⟩⟩) = none ∧
    save_workflow_as_json v imgPath outDir fs = (none, fs) ∧
    templates_main_step fname (some ⟨[("workflow", payload)]⟩) fs = Except.ok fs := by
  have hne : payload ≠ "" := by
    intro he
    rw [he] at hp
    exact Option.noConfusion hp
  refine ⟨?_, ?_, ?_⟩
  · simp [download_file, extract_workflow_from_image, imageWorkflowField, lookupA,
      hne, hp, hf]
  · simp [save_workflow_as_json, hf]
  · simp [templates_main_step, templates_extract, imageWorkflowField, lookupA,
      hne, hp, hf]

/-- C10 witness: the theorem applied to the payload 0, which parses to
the falsy JSON number zero. -/
theorem C10_witness :
    download_file FileType.image "a.png" (some ⟨"", some ⟨[("workflow", "0")]⟩⟩) = none ∧
    save_workflow_as_json (Json.num 0) "a.png" "out" [] = (none, []) ∧
    templates_main_step "a.png" (some ⟨[("workflow", "0")]⟩) [] = Except.ok [] :=
  C10_falsy_workflow_not_persisted "0" (Json.num 0) "a.png" "a.png" "out" "a.png" "" []
    rfl rfl rfl

/-- Helper: two strings with the same character data are equal. -/
theorem strEqOfData (s t : String) (h : s.data = t.data) : s = t := by
  cases s
  cases t
  exact congrArg String.mk h

/-- Helper: appending strings appends their data. -/
theorem strDataAppend (s t : String) : (s ++ t).data = s.data ++ t.data := by
  cases s
  cases t
  rfl

/-- Helper: string append is associative. -/
theorem strAppendAssoc (a b c : String) : a ++ b ++ c = a ++ (b ++ c) :=
  strEqOfData _ _ (by simp [strDataAppend, List.append_assoc])

/-- Helper: the empty string is a right identity of append. -/
theorem strAppendEmpty (s : String) : s ++ "" = s :=
  strEqOfData _ _ (by simp [strDataAppend])

/-- Helper: a list is a prefix of itself followed by anything. -/
theorem isPrefixOf_append_self (a b : List Char) : a.isPrefixOf (a ++ b) = true := by
  induction a with
  | nil => simp [List.isPrefixOf]
  | cons c a ih => simp [List.isPrefixOf, ih]

/-- Helper: endswith holds for a string whose data ends in the suffix. -/
theorem endsWithStr_append (x suf s : String) (h : s.data = x.data ++ suf.data) :
    endsWithStr suf s = true := by
  unfold endsWithStr List.isSuffixOf
  rw [h, List.reverse_append]
  exact isPrefixOf_append_self suf.data.reverse x.data.reverse

/-- Helper: takeWhile keeps a list all of whose elements satisfy the
predicate. -/
theorem takeWhile_all {α : Type} (p : α → Bool) (l : List α) (h : ∀ a ∈ l, p a = true) :
    l.takeWhile p = l := by
  induction l with
  | nil => rfl
  | cons a l ih =>
    rw [List.takeWhile_cons, if_pos (h a (List.mem_cons_self a l))]
    rw [ih (fun b hb => h b (List.mem_cons_of_mem a hb))]

/-- Helper: a slash-free path is its own basename. -/
theorem basenameC_no_slash (cs : List Char) (h : ¬ '/' ∈ cs) : basenameC cs = cs := by
  unfold basenameC
  rw [takeWhile_all _ _ ?hall, List.reverse_reverse]
  intro a ha
  have ham : a ∈ cs := List.mem_reverse.mp ha
  by_cases he : a = '/'
  · exact absurd (he ▸ ham) h
  · simp [he]

/-- Helper: the first element surviving dropWhile fails the predicate. -/
theorem dropWhile_head_eq_false {α : Type} (p : α → Bool) (l : List α) (c : α) (t : List α)
    (h : l.dropWhile p = c :: t) : p c = false := by
  induction l with
  | nil => exact absurd h (by simp)
  | cons a l ih =>
    rw [List.dropWhile_cons] at h
    by_cases hp : p a
    · rw [if_pos hp] at h
      exact ih h
    · rw [if_neg hp] at h
      injection h with h1 h2
      subst h1
      simpa using hp

/-- Helper: any path component is its pathlib stem followed by its
pathlib suffix. -/
theorem take_append_pathSuffixC (base : List Char) :
    base.take (base.length - (pathSuffixC base).length) ++ pathSuffixC base = base := by
  simp only [pathSuffixC]
  set pre := base.reverse.takeWhile (fun c => !(c == '.')) with hpre
  by_cases hc : 0 < pre.length ∧ pre.length + 1 < base.reverse.length
  · rw [if_pos hc]
    obtain ⟨h1, h2⟩ := hc
    have hsplit := List.takeWhile_append_dropWhile
      (p := fun c => !(c == '.')) (l := base.reverse)
    rw [← hpre] at hsplit
    cases hd : base.reverse.dropWhile (fun c => !(c == '.')) with
    | nil =>
      rw [hd, List.append_nil] at hsplit
      rw [hsplit] at h2
      omega
    | cons c rest2 =>
      have hcdot : (fun c => !(c == '.')) c = false :=
        dropWhile_head_eq_false (fun c => !(c == '.')) base.reverse c rest2 hd
      have hceq : c = '.' := by simpa using hcdot
      subst hceq
      rw [hd] at hsplit
      have hbase : base = rest2.reverse ++ '.' :: pre.reverse := by
        have h3 := congrArg List.reverse hsplit
        simp only [List.reverse_append, List.reverse_cons, List.reverse_reverse,
          List.append_assoc, List.singleton_append] at h3
        exact h3.symm
      have hcount : base.length - ('.' :: pre.reverse).length = rest2.length := by
        rw [hbase]
        simp
      rw [hcount, hbase, List.take_left' (by simp)]
  · rw [if_neg hc]
    simp

/-- C6: in each persistence path the destination filename is the source
candidate basename with its original extension stripped, a fixed
per-component suffix appended and a .json extension: the image crawler
uses the splitext stem plus the _workflow suffix, the hosted-tree crawler
keeps the pathlib stem with an empty suffix (a .json source name is kept
verbatim, which equals its stem plus .json; an extracted image is renamed
to its stem plus .json), and the template parser uses the splitext stem
plus the _metadata suffix. The derivation is a pure function of the
source name, hence deterministic. -/
theorem C6_filename_derivation (wd : Json) (imgPath outDir : String)
    (fs : List (String × String))
    (jname jtxt : String) (j : Json)
    (iname txt : String) (img : PILImage) (v : Json)
    (fname : String) (img2 : PILImage) (w : Json)
    (h1 : wd.truthy = true)
    (h2 : pathSuffix jname = ".json") (hj : ¬ '/' ∈ jname.data)
    (h3 : jsonParse jtxt = some j)
    (h4 : SUPPORTED_IMAGE_EXTENSIONS.contains (lowerStr (pathSuffix iname)) = true)
    (h5 : extract_workflow_from_image (some img) = some v) (h6 : v.truthy = true)
    (h7 : templates_extract (some img2) = Except.ok w) (h8 : w.truthy = true) :
    (save_workflow_as_json wd imgPath outDir fs).1 =
      some (outDir ++ "/" ++
        (splitextStem ⟨basenameC imgPath.data⟩ ++ "_workflow" ++ ".json")) ∧
    download_file FileType.json jname (some ⟨jtxt, none⟩) = some (jname, j) ∧
    jname = pathStem jname ++ "" ++ ".json" ∧
    download_file FileType.image iname (some ⟨txt, some img⟩) =
      some (pathStem iname ++ "" ++ ".json", v) ∧
    templates_main_step fname (some img2) fs =
      Except.ok (fsWrite fs
        (TEMPLATE_DIR ++ "/" ++ (splitextStem fname ++ "_metadata" ++ ".json"))
        (serialize w)) := by
  have hb : basenameC jname.data = jname.data := basenameC_no_slash jname.data hj
  have hsufd : pathSuffixC (basenameC jname.data) = ".json".data := congrArg String.data h2
  have htake := take_append_pathSuffixC (basenameC jname.data)
  have hjdata : jname.data = (pathStem jname).data ++ ".json".data := by
    conv_lhs => rw [← hb, ← htake]
    exact congrArg (fun l => (basenameC jname.data).take
      ((basenameC jname.data).length - (pathSuffixC (basenameC jname.data)).length) ++ l) hsufd
  have hend : endsWithStr ".json" jname = true :=
    endsWithStr_append (pathStem jname) ".json" jname hjdata
  refine ⟨?_, ?_, ?_, ?_, ?_⟩
  · have hname1 : splitextStem ⟨basenameC imgPath.data⟩ ++ "_workflow" ++ ".json" =
        splitextStem ⟨basenameC imgPath.data⟩ ++ "_workflow.json" := by
      rw [strAppendAssoc]
      exact congrArg _ (strEqOfData _ _ rfl)
    rw [hname1]
    simp [save_workflow_as_json, h1, workflow_json_path]
  · simp [download_file, hend, h3]
  · rw [strAppendEmpty]
    exact strEqOfData _ _ (by rw [strDataAppend]; exact hjdata)
  · have h4m : lowerStr (pathSuffix iname) ∈ SUPPORTED_IMAGE_EXTENSIONS := by
      simpa using h4
    simp [download_file, h4m, h5, h6, strAppendEmpty]
  · have hname2 : splitextStem fname ++ "_metadata" ++ ".json" =
        splitextStem fname ++ "_metadata.json" := by
      rw [strAppendAssoc]
      exact congrArg _ (strEqOfData _ _ rfl)
    rw [hname2]
    simp [templates_main_step, h7, h8]

/-- C6 witness: the theorem applied to concrete names along each of the
three persistence paths. -/
theorem C6_witness :
    (save_workflow_as_json (Json.num 5) "imgs/cat.png" "out" []).1 =
      some ("out" ++ "/" ++
        (splitextStem ⟨basenameC "imgs/cat.png".data⟩ ++ "_workflow" ++ ".json")) ∧
    download_file FileType.json "wf.json" (some ⟨"3", none⟩) = some ("wf.json", Json.num 3) ∧
    "wf.json" = pathStem "wf.json" ++ "" ++ ".json" ∧
    download_file FileType.image "pic.png"
        (some ⟨"", some ⟨[("workflow", "4")]⟩⟩) =
      some (pathStem "pic.png" ++ "" ++ ".json", Json.num 4) ∧
    templates_main_step "tpl.png" (some ⟨[("parameters", "6")]⟩) [] =
      Except.ok (fsWrite []
        (TEMPLATE_DIR ++ "/" ++ (splitextStem "tpl.png" ++ "_metadata" ++ ".json"))
        (serialize (Json.num 6))) :=
  C6_filename_derivation (Json.num 5) "imgs/cat.png" "out" [] "wf.json" "3" (Json.num 3)
    "pic.png" "" ⟨[("workflow", "4")]⟩ (Json.num 4) "tpl.png" ⟨[("parameters", "6")]⟩
    (Json.num 6) rfl rfl (by decide) rfl rfl rfl rfl rfl rfl

/-- C8: on a web whose root page has three direct image links and one
relative non-image sub-page link, where the sub-page embeds two img tags
(and links one further sub-page that itself holds an image), discovery
yields exactly the five distinct image URIs, 3 + 2; the deeper page is
never visited (traversal is one level deep). On the same web with one
sub-page image equal to a root image URI, the duplicate is collapsed by
exact URI string and exactly four candidates remain, the duplicate
appearing once. -/
theorem C8_webpage_discovery :
    crawl_image_urls
        [("https://ex.com/", ⟨["a.png", "b.png", "c.png", "sub.html"], []⟩),
         ("https://ex.com/sub.html", ⟨["deep.html"], ["d.png", "e.png"]⟩),
         ("https://ex.com/deep.html", ⟨[], ["f.png"]⟩)] "https://ex.com/" =
      ["https://ex.com/a.png", "https://ex.com/b.png", "https://ex.com/c.png",
       "https://ex.com/d.png", "https://ex.com/e.png"] ∧
    (crawl_image_urls
        [("https://ex.com/", ⟨["a.png", "b.png", "c.png", "sub.html"], []⟩),
         ("https://ex.com/sub.html", ⟨["deep.html"], ["d.png", "e.png"]⟩),
         ("https://ex.com/deep.html", ⟨[], ["f.png"]⟩)] "https://ex.com/").length = 5 ∧
    "https://ex.com/f.png" ∉ crawl_image_urls
        [("https://ex.com/", ⟨["a.png", "b.png", "c.png", "sub.html"], []⟩),
         ("https://ex.com/sub.html", ⟨["deep.html"], ["d.png", "e.png"]⟩),
         ("https://ex.com/deep.html", ⟨[], ["f.png"]⟩)] "https://ex.com/" ∧
    crawl_image_urls
        [("https://ex.com/", ⟨["a.png", "b.png", "c.png", "sub.html"], []⟩),
         ("https://ex.com/sub.html", ⟨[], ["d.png", "https://ex.com/a.png"]⟩)]
        "https://ex.com/" =
      ["https://ex.com/a.png", "https://ex.com/b.png", "https://ex.com/c.png",
       "https://ex.com/d.png"] ∧
    (crawl_image_urls
        [("https://ex.com/", ⟨["a.png", "b.png", "c.png", "sub.html"], []⟩),
         ("https://ex.com/sub.html", ⟨[], ["d.png", "https://ex.com/a.png"]⟩)]
        "https://ex.com/").count "https://ex.com/a.png" = 1 := by
  refine ⟨rfl, rfl, by decide, rfl, rfl⟩

/-- Helper: takeWhile collects a satisfying prefix and stops at the first
failing element. -/
theorem takeWhile_append_stop {α : Type} (p : α → Bool) (l1 l2 : List α) (b : α)
    (h1 : ∀ a ∈ l1, p a = true) (hb : p b = false) :
    (l1 ++ b :: l2).takeWhile p = l1 := by
  induction l1 with
  | nil => simp [List.takeWhile_cons, hb]
  | cons a l ih =>
    rw [List.cons_append, List.takeWhile_cons, if_pos (h1 a (List.mem_cons_self a l))]
    rw [ih (fun x hx => h1 x (List.mem_cons_of_mem a hx))]

/-- Helper: dropping one past a prefix removes it and the separator. -/
theorem drop_append_cons {α : Type} (l1 l2 : List α) (b : α) :
    (l1 ++ b :: l2).drop (l1.length + 1) = l2 := by
  induction l1 with
  | nil => simp
  | cons a l ih =>
    rw [List.cons_append, List.length_cons, List.drop_succ_cons]
    exact ih

/-- Helper: a timestamp-based fallback name always carries the default
extension, whatever the (slash-free, dot-free) timestamp text is. -/
theorem splitextExt_fallback (ts : String) (hts1 : ¬ '/' ∈ ts.data) :
    splitextExt ("civitai_model_" ++ ts ++ ".safetensors").data = ".safetensors".data := by
  have hdata : ("civitai_model_" ++ ts ++ ".safetensors").data =
      "civitai_model_".data ++ ts.data ++ ".safetensors".data := by
    rw [strDataAppend, strDataAppend]
  have hnoslash : ¬ '/' ∈ ("civitai_model_" ++ ts ++ ".safetensors").data := by
    rw [hdata]
    intro hmem
    rcases List.mem_append.mp hmem with hmem1 | hmem2
    · rcases List.mem_append.mp hmem1 with hmem3 | hmem4
      · exact absurd hmem3 (by decide)
      · exact hts1 hmem4
    · exact absurd hmem2 (by decide)
  have hanylit : ("civitai_model_".data.reverse).any (fun c => !(c == '.')) = true := by decide
  have hanyts : (ts.data.reverse ++ "civitai_model_".data.reverse).any
      (fun c => !(c == '.')) = true := by
    rw [List.any_append, hanylit, Bool.or_true]
  simp only [splitextExt]
  rw [basenameC_no_slash _ hnoslash, hdata]
  rw [List.reverse_append, List.reverse_append]
  rw [show (".safetensors".data.reverse) = "srosnetefas".data ++ ['.'] from by decide]
  rw [List.append_assoc, List.singleton_append]
  rw [takeWhile_append_stop (fun c => !(c == '.')) "srosnetefas".data
    (ts.data.reverse ++ "civitai_model_".data.reverse) '.' (by decide) (by decide)]
  rw [if_neg (by simp)]
  rw [drop_append_cons]
  rw [if_pos hanyts]
  decide

/-- C9: download_model_file registers the destination directory, derives
the filename from the basename of the URL path when none is supplied
(kept as is when it is five or more characters long and already carries
an extension), falls back to the timestamp-based name with the default
.safetensors extension when the derived basename is shorter than five
characters, and appends the default extension to a supplied filename
exactly when that filename has none. -/
theorem C9_fetcher_filename (u1 u2 f g ts outDir body : String) (st : DLState)
    (hts1 : ¬ '/' ∈ ts.data)
    (hb5 : 5 ≤ (basenameC (urlPathC u1.data)).length)
    (hbe : splitextExt (basenameC (urlPathC u1.data)) ≠ [])
    (hlt : (basenameC (urlPathC u2.data)).length < 5)
    (hf : f ≠ "") (hfe : splitextExt f.data = [])
    (hg : g ≠ "") (hge : splitextExt g.data ≠ []) :
    outDir ∈ (download_model_file u1 outDir none ts body st).1.dirs ∧
    chooseDownloadFilename u1 none ts = ⟨basenameC (urlPathC u1.data)⟩ ∧
    chooseDownloadFilename u2 none ts = "civitai_model_" ++ ts ++ ".safetensors" ∧
    chooseDownloadFilename u1 (some f) ts = f ++ ".safetensors" ∧
    chooseDownloadFilename u1 (some g) ts = g := by
  have hbne : (⟨basenameC (urlPathC u1.data)⟩ : String) ≠ "" := by
    intro he
    have hd := congrArg String.data he
    have hlen : (basenameC (urlPathC u1.data)).length = 0 := by
      simpa using congrArg List.length hd
    omega
  refine ⟨?_, ?_, ?_, ?_, ?_⟩
  · simp only [download_model_file]
    exact List.mem_cons_self _ _
  · have hc1 : ¬ ((⟨basenameC (urlPathC u1.data)⟩ : String) = "" ∨
        (⟨basenameC (urlPathC u1.data)⟩ : String).data.length < 5) := by
      rintro (he | hl)
      · exact hbne he
      · have hl2 : (basenameC (urlPathC u1.data)).length < 5 := hl
        omega
    have hc2 : ¬ splitextExt (⟨basenameC (urlPathC u1.data)⟩ : String).data = [] := hbe
    simp only [chooseDownloadFilename, deriveFromUrl]
    rw [if_neg hc1, if_neg hc2]
  · have hc3 : ((⟨basenameC (urlPathC u2.data)⟩ : String) = "" ∨
        (⟨basenameC (urlPathC u2.data)⟩ : String).data.length < 5) := Or.inr hlt
    have hc4 : ¬ splitextExt ("civitai_model_" ++ ts ++ ".safetensors").data = [] := by
      rw [splitextExt_fallback ts hts1]
      decide
    simp only [chooseDownloadFilename, deriveFromUrl]
    rw [if_pos hc3, if_neg hc4]
  · simp only [chooseDownloadFilename]
    rw [if_neg hf, if_pos hfe]
  · simp only [chooseDownloadFilename]
    rw [if_neg hg, if_neg hge]

/-- C9 witness: the theorem applied at a long-basename URL, a
short-basename URL, an extensionless supplied name, a supplied name with
an extension and a strftime-shaped timestamp. -/
theorem C9_witness :
    "models" ∈ (download_model_file "https://civ.com/files/model.bin" "models" none
        "20250101_000000" "bytes" ⟨[], []⟩).1.dirs ∧
    chooseDownloadFilename "https://civ.com/files/model.bin" none "20250101_000000" =
      ⟨basenameC (urlPathC "https://civ.com/files/model.bin".data)⟩ ∧
    chooseDownloadFilename "https://civ.com/files/a.b" none "20250101_000000" =
      "civitai_model_" ++ "20250101_000000" ++ ".safetensors" ∧
    chooseDownloadFilename "https://civ.com/files/model.bin" (some "ckpt") "20250101_000000" =
      "ckpt" ++ ".safetensors" ∧
    chooseDownloadFilename "https://civ.com/files/model.bin" (some "x.ckpt") "20250101_000000" =
      "x.ckpt" :=
  C9_fetcher_filename "https://civ.com/files/model.bin" "https://civ.com/files/a.b"
    "ckpt" "x.ckpt" "20250101_000000" "models" "bytes" ⟨[], []⟩
    (by decide) (by decide) (by decide) (by decide)
    (by decide) (by decide) (by decide) (by decide)

/-- Helper: splitting splits off a leading slash-free segment at its
slash. -/
theorem splitSlash_append (xs ys : List Char) (h : ¬ '/' ∈ xs) :
    splitSlash (xs ++ '/' :: ys) = xs :: splitSlash ys := by
  induction xs with
  | nil => simp [splitSlash]
  | cons c cs ih =>
    have hc : c ≠ '/' := fun he => h (he ▸ List.mem_cons_self c cs)
    rw [List.cons_append]
    simp only [splitSlash]
    rw [if_neg hc, ih (fun hm => h (List.mem_cons_of_mem c hm))]

/-- Helper: splitting never yields an empty segment list. -/
theorem splitSlash_ne_nil (xs : List Char) : splitSlash xs ≠ [] := by
  cases xs with
  | nil => simp [splitSlash]
  | cons c cs =>
    simp only [splitSlash]
    by_cases hc : c = '/'
    · rw [if_pos hc]
      simp
    · rw [if_neg hc]
      cases hs : splitSlash cs with
      | nil => simp
      | cons g gs => simp

/-- Helper: a slash-free list splits into a single segment. -/
theorem splitSlash_no_slash (xs : List Char) (h : ¬ '/' ∈ xs) : splitSlash xs = [xs] := by
  induction xs with
  | nil => rfl
  | cons c cs ih =>
    have hc : c ≠ '/' := fun he => h (he ▸ List.mem_cons_self c cs)
    simp only [splitSlash]
    rw [if_neg hc, ih (fun hm => h (List.mem_cons_of_mem c hm))]

/-- Helper: rejoining the split segments restores the list. -/
theorem joinSlash_splitSlash (xs : List Char) : joinSlash (splitSlash xs) = xs := by
  induction xs with
  | nil => rfl
  | cons c cs ih =>
    simp only [splitSlash]
    by_cases hc : c = '/'
    · rw [if_pos hc]
      cases hs : splitSlash cs with
      | nil => exact absurd hs (splitSlash_ne_nil cs)
      | cons g gs =>
        rw [hs] at ih
        subst hc
        simpa [joinSlash] using ih
    · rw [if_neg hc]
      cases hs : splitSlash cs with
      | nil => exact absurd hs (splitSlash_ne_nil cs)
      | cons g gs =>
        rw [hs] at ih
        cases gs with
        | nil => simpa [joinSlash] using ih
        | cons g2 gs2 => simpa [joinSlash] using ih

/-- C5 counterexample: two tree URLs that differ only in the branch
segment normalize to the identical descriptor — there is no branchOrRef
in the result — and the contents request built from it carries no ref
parameter, so discovery always queries the default branch even when the
URL names another branch. -/
theorem C5_counterexample :
    parse_github_url "https://github.com/o/r/tree/dev/sub" =
      parse_github_url "https://github.com/o/r/tree/main/sub" ∧
    parse_github_url "https://github.com/o/r/tree/dev/sub" = some ("o", "r", "sub") ∧
    get_repo_contents_url "o" "r" "sub" = "https://api.github.com/repos/o/r/contents/sub" := by
  refine ⟨rfl, rfl, rfl⟩

/-- C5 (amended): for a tree/<branch>/<path> URL, normalization derives
owner and repository from the first two path segments and the subpath
from the segments after the branch, but the branch segment itself is
matched, logged and discarded: for every branch value the result is the
same triple of owner, repository and subpath, and no branch reaches the
API request. -/
theorem C5_tree_url_components (o r b p : List Char)
    (ho1 : o ≠ []) (ho2 : ¬ '/' ∈ o) (hr1 : r ≠ []) (hr2 : ¬ '/' ∈ r)
    (hb1 : b ≠ []) (hb2 : ¬ '/' ∈ b) (hp : p ≠ []) :
    parseGH ("https://github.com/".data ++
        (o ++ '/' :: (r ++ '/' :: ("tree".data ++ '/' :: (b ++ '/' :: p))))) =
      some (o, r, p) := by
  have hhost : afterHostC (dropWwwC (dropSchemeC ("https://github.com/".data ++
      (o ++ '/' :: (r ++ '/' :: ("tree".data ++ '/' :: (b ++ '/' :: p))))))) =
      some (o ++ '/' :: (r ++ '/' :: ("tree".data ++ '/' :: (b ++ '/' :: p)))) := rfl
  have htree : ¬ '/' ∈ "tree".data := by decide
  unfold parseGH
  rw [hhost]
  dsimp only
  rw [splitSlash_append o _ ho2, splitSlash_append r _ hr2,
    splitSlash_append "tree".data _ htree, splitSlash_append b _ hb2]
  cases hs : splitSlash p with
  | nil => exact absurd hs (splitSlash_ne_nil p)
  | cons q qs =>
    have hjoin : joinSlash (q :: qs) = p := by
      rw [← hs]
      exact joinSlash_splitSlash p
    have hor : ¬ (o = [] ∨ r = []) := by
      rintro (he | he)
      · exact ho1 he
      · exact hr1 he
    have hjne : joinSlash (q :: qs) ≠ [] := by
      rw [hjoin]
      exact hp
    dsimp only
    rw [if_neg hor, if_pos ⟨rfl, hb1, hjne⟩, hjoin, splitSlash_no_slash r hr2]
    rfl

/-- C5 witness: the amended theorem applied at concrete owner, repo,
branch and subpath segments. -/
theorem C5_witness :
    parseGH ("https://github.com/".data ++
        ("own".data ++ '/' :: ("rep".data ++ '/' ::
          ("tree".data ++ '/' :: ("dev".data ++ '/' :: "sub/dir".data))))) =
      some ("own".data, "rep".data, "sub/dir".data) :=
  C5_tree_url_components "own".data "rep".data "dev".data "sub/dir".data
    (by decide) (by decide) (by decide) (by decide) (by decide) (by decide) (by decide)
